import Mathlib

/-!
Verification development for the mock MQTT broker
(src/core/export-gateway/tests/unit/mock_mqtt_broker.py).

Bytes are modelled as natural numbers (real wire bytes are < 256); byte
buffers are lists of naturals. Strings produced by Python's
bytes.decode are modelled as lists of Unicode code points. The
wall-clock receipt timestamp carried by each stored record is an I/O
value outside the shallow embedding and is omitted from the record type;
no claim under audit mentions it.
-/

namespace MockMqtt

/-- One step of CPython bytes.decode under the utf-8 codec at the byte
level: given the not-yet-decoded bytes, return the code points emitted
for the first sequence and how many bytes that sequence consumed
(always at least one). The boolean selects the error handler: when
false, an invalid sequence emits nothing (the errors equal to ignore
handler used by the source); when true it emits U+FFFD (the
substitution reading). Invalid-span consumption follows CPython: a bad
start byte consumes one byte; a sequence whose later continuation byte
fails validation consumes the start byte plus the continuation bytes
already validated. -/
def utf8Step (repl : Bool) (l : List Nat) : List Nat × Nat :=
  let err : List Nat := if repl then [0xFFFD] else []
  match l with
  | [] => ([], 1)
  | b :: rest =>
    if b < 0x80 then ([b], 1)
    else if b < 0xC2 then (err, 1)
    else if b ≤ 0xDF then
      match rest with
      | c1 :: _ =>
        if 0x80 ≤ c1 ∧ c1 ≤ 0xBF then ([(b - 0xC0) * 0x40 + (c1 - 0x80)], 2)
        else (err, 1)
      | [] => (err, 1)
    else if b ≤ 0xEF then
      match rest with
      | c1 :: rest1 =>
        if (if b = 0xE0 then 0xA0 else 0x80) ≤ c1 ∧
            c1 ≤ (if b = 0xED then 0x9F else 0xBF) then
          match rest1 with
          | c2 :: _ =>
            if 0x80 ≤ c2 ∧ c2 ≤ 0xBF then
              ([(b - 0xE0) * 0x1000 + (c1 - 0x80) * 0x40 + (c2 - 0x80)], 3)
            else (err, 2)
          | [] => (err, 2)
        else (err, 1)
      | [] => (err, 1)
    else if b ≤ 0xF4 then
      match rest with
      | c1 :: rest1 =>
        if (if b = 0xF0 then 0x90 else 0x80) ≤ c1 ∧
            c1 ≤ (if b = 0xF4 then 0x8F else 0xBF) then
          match rest1 with
          | c2 :: rest2 =>
            if 0x80 ≤ c2 ∧ c2 ≤ 0xBF then
              match rest2 with
              | c3 :: _ =>
                if 0x80 ≤ c3 ∧ c3 ≤ 0xBF then
                  ([(b - 0xF0) * 0x40000 + (c1 - 0x80) * 0x1000 +
                      (c2 - 0x80) * 0x40 + (c3 - 0x80)], 4)
                else (err, 3)
              | [] => (err, 3)
            else (err, 2)
          | [] => (err, 2)
        else (err, 1)
      | [] => (err, 1)
    else (err, 1)

/-- Driver for utf8Step; the fuel argument (instantiated with the list
length, an upper bound on the number of steps since each step consumes
at least one byte) makes the recursion structural. -/
def utf8Go (repl : Bool) : Nat → List Nat → List Nat
  | 0, _ => []
  | _, [] => []
  | fuel + 1, b :: rest =>
    (utf8Step repl (b :: rest)).1 ++
      utf8Go repl fuel ((b :: rest).drop (utf8Step repl (b :: rest)).2)

/-- Model of CPython bytes.decode under the utf-8 codec, producing the
list of decoded code points. -/
def utf8DecodeAux (repl : Bool) (l : List Nat) : List Nat :=
  utf8Go repl l.length l

/-- Python bytes.decode with the utf-8 codec and errors set to ignore,
as used by parse_publish for both topic and payload. -/
def utf8DecodeIgnore : List Nat → List Nat := utf8DecodeAux false

/-- Modelled from the spec: the reading of section 4.1 in which decode
errors substitute the unmappable bytes (each invalid sequence becomes
the replacement character U+FFFD) instead of being dropped. The source
itself uses the ignore handler; this definition exists only to compare
the two readings. -/
def utf8DecodeReplace : List Nat → List Nat := utf8DecodeAux true

/-- One stored publish record: the dictionary appended to
published_messages by parse_publish (the wall-clock timestamp field is
omitted, see the module comment). -/
structure Record where
  topic : List Nat
  payload : List Nat
  qos : Nat
  retain : Bool
deriving Repr, DecidableEq

/-- The remaining-length while loop of parse_publish, written over the
list of not-yet-visited bytes. The arguments mirror the Python locals:
pos is the index of the head of the remaining list inside the full
buffer, mult the current multiplier, acc the accumulated value. Returns
the pair of remaining_length and the final pos (the index of the first
byte with clear continuation bit, or the buffer length when the loop
runs off the end). -/
def remLenGo : List Nat → Nat → Nat → Nat → Nat × Nat
  | [], pos, _, acc => (acc, pos)
  | b :: bs, pos, mult, acc =>
    if b &&& 0x80 = 0 then (acc + (b &&& 0x7F) * mult, pos)
    else remLenGo bs (pos + 1) (mult * 128) (acc + (b &&& 0x7F) * mult)

/-- The remaining-length loop of parse_publish run on a whole buffer:
scanning starts at index 1 with multiplier 1 and accumulator 0. -/
def remLenLoop (data : List Nat) : Nat × Nat :=
  remLenGo (data.drop 1) 1 1 0

/-- Index at which parse_publish starts reading the variable header:
the final loop pos plus one (the Python pos += 1 after the loop). -/
def varHeaderPos (data : List Nat) : Nat := (remLenLoop data).2 + 1

/-- The qos bits of the fixed header, as computed both by parse_publish
and by handle_client: (data[0] >> 1) & 0x03. -/
def qosOf (data : List Nat) : Nat := (data.getD 0 0 >>> 1) &&& 0x03

/-- Translation of MockMqttBroker.parse_publish. Returns the record
appended to published_messages, or none when the packet is dropped (the
three early returns for truncated buffers; an empty buffer raises
IndexError at data[0], caught by the surrounding except, hence also
none). Guards are written in the Python form pos + n > len(data),
rendered as len < pos + n over naturals. -/
def parse_publish (data : List Nat) : Option Record :=
  if data = [] then none else
  let b0 := data.getD 0 0
  let qos := (b0 >>> 1) &&& 0x03
  let retain := (b0 &&& 0x01) == 1
  let pos := varHeaderPos data
  if data.length < pos + 2 then none else
  let topicLen := 256 * data.getD pos 0 + data.getD (pos + 1) 0
  if data.length < pos + 2 + topicLen then none else
  let topic := utf8DecodeIgnore ((data.drop (pos + 2)).take topicLen)
  if 0 < qos then
    if data.length < pos + 2 + topicLen + 2 then none
    else some ⟨topic, utf8DecodeIgnore (data.drop (pos + 2 + topicLen + 2)), qos, retain⟩
  else some ⟨topic, utf8DecodeIgnore (data.drop (pos + 2 + topicLen)), qos, retain⟩

/-- Whether the CONNECTED receive loop continues or breaks after a
chunk. -/
inductive LoopCtl
  | cont
  | brk
deriving Repr, DecidableEq

/-- Observable effect of one iteration of the CONNECTED receive loop on
one received chunk: the bytes written back, the record appended to the
store (if any), and whether the loop continues. -/
structure StepOut where
  sent : List Nat
  rec? : Option Record
  ctl : LoopCtl
deriving Repr, DecidableEq

/-- Translation of the body of the CONNECTED while loop in
handle_client, for one non-empty received chunk. For type 3 the PUBACK
identifier is struct.unpack of pub_data[2:4] (fixed offsets), packed
back big-endian; it is sent whenever qos bits are positive, the chunk
has at least 4 bytes and the qos bits equal 1 — independently of
whether parse_publish succeeded. -/
def connectedStep (d : List Nat) : StepOut :=
  let t := (d.getD 0 0 >>> 4) &&& 0x0F
  if t = 3 then
    let q := qosOf d
    let sent :=
      if 0 < q ∧ 4 ≤ d.length then
        if q = 1 then
          let msgId := 256 * d.getD 2 0 + d.getD 3 0
          [0x40, 0x02, msgId / 256 % 256, msgId % 256]
        else []
      else []
    ⟨sent, parse_publish d, .cont⟩
  else if t = 12 then ⟨[0xD0, 0x00], none, .cont⟩
  else if t = 14 then ⟨[], none, .brk⟩
  else ⟨[], none, .cont⟩

/-- The CONNECTED receive loop over the sequence of chunks the socket
will deliver; an empty chunk models a zero-length read (peer closed)
and exhaustion of the list models the peer sending nothing further.
Returns all bytes written back and all records appended, in order. -/
def connectedLoop : List (List Nat) → List Nat × List Record
  | [] => ([], [])
  | d :: rest =>
    if d = [] then ([], [])
    else
      match (connectedStep d).ctl with
      | .brk => ((connectedStep d).sent, (connectedStep d).rec?.toList)
      | .cont =>
          ((connectedStep d).sent ++ (connectedLoop rest).1,
           (connectedStep d).rec?.toList ++ (connectedLoop rest).2)

/-- Final protocol state of a connection handler. -/
inductive HState
  | awaitingConnect
  | connected
  | closed
deriving Repr, DecidableEq

/-- Observable outcome of handle_client on one connection: bytes
written, records appended, whether the CONNECT branch (the CONNECTED
receive loop) was ever entered, and the final state. -/
structure ClientResult where
  sent : List Nat
  records : List Record
  reachedConnected : Bool
  finalState : HState
deriving Repr, DecidableEq

/-- Translation of MockMqttBroker.handle_client driven by the list of
chunks successive recv calls return. A first chunk that is absent or
empty returns at the if-not-data guard. A first chunk of length at
least 2 whose high nibble is 1 (CONNECT) sends the CONNACK bytes
0x20 0x02 0x00 0x00 and runs the CONNECTED loop on the remaining
chunks. Any other first chunk falls through the if-ladder. In every
case the function ends at the finally block, which closes the socket,
so the final state is always closed. -/
def handle_client (chunks : List (List Nat)) : ClientResult :=
  match chunks with
  | [] => ⟨[], [], false, .closed⟩
  | d :: rest =>
    if d = [] then ⟨[], [], false, .closed⟩
    else if 2 ≤ d.length ∧ (d.getD 0 0 >>> 4) &&& 0x0F = 1 then
      ⟨[0x20, 0x02, 0x00, 0x00] ++ (connectedLoop rest).1,
       (connectedLoop rest).2, true, .closed⟩
    else ⟨[], [], false, .closed⟩

/-- Translation of MockMqttBroker.get_published_messages: under the
lock, list(self.published_messages) — a copy of the current contents.
The store state is the list of records. -/
def get_published_messages (s : List Record) : List Record := s

/-- Translation of MockMqttBroker.clear_messages: under the lock,
self.published_messages.clear(). -/
def clear_messages (_ : List Record) : List Record := []

/-- Translation of the append performed by parse_publish under the
lock: self.published_messages.append(record). -/
def append_record (s : List Record) (r : Record) : List Record := s ++ [r]

example : utf8DecodeIgnore [0xFF, 0x61, 0x62] = [0x61, 0x62] := rfl
example : utf8DecodeReplace [0xFF, 0x61, 0x62] = [0xFFFD, 0x61, 0x62] := rfl
example : utf8DecodeIgnore [0xC3, 0xA9] = [0xE9] := rfl
example :
    parse_publish [0x32, 0x0A, 0x00, 0x02, 0x61, 0x62, 0x00, 0x07, 0x74, 0x65, 0x73, 0x74]
      = some ⟨[0x61, 0x62], [0x74, 0x65, 0x73, 0x74], 1, false⟩ := rfl
example :
    connectedStep [0x32, 0x0A, 0x00, 0x02, 0x61, 0x62, 0x00, 0x07, 0x74, 0x65, 0x73, 0x74]
      = ⟨[0x40, 0x02, 0x00, 0x02],
          some ⟨[0x61, 0x62], [0x74, 0x65, 0x73, 0x74], 1, false⟩, .cont⟩ := rfl
example : parse_publish [0x32, 0x0A, 0x00, 0x20] = none := rfl
example : (connectedStep [0x32, 0x0A, 0x00, 0x20]).sent = [0x40, 0x02, 0x00, 0x20] := rfl
example : handle_client [[0x30, 0x00]] = ⟨[], [], false, .closed⟩ := rfl
example :
    handle_client [[0x10, 0x00], [0x36, 0x04, 0x00, 0x00, 0x00, 0x07]]
      = ⟨[0x20, 0x02, 0x00, 0x00], [⟨[], [], 3, false⟩], true, .closed⟩ := rfl
example : remLenLoop [0x30, 0x81, 0x01, 0x00] = (129, 2) := rfl

/-! Helper lemmas. -/

theorem getD_drop_nat : ∀ (l : List Nat) (n i : Nat),
    (l.drop n).getD i 0 = l.getD (n + i) 0
  | _, 0, _ => by simp
  | [], _ + 1, _ => by simp
  | _ :: as, n + 1, i => by
      rw [List.drop_succ_cons, Nat.add_right_comm, List.getD_cons_succ]
      exact getD_drop_nat as n i

theorem eq_of_getD_agree (d1 d2 : List Nat) (hlen : d1.length = d2.length)
    (hg : ∀ i, d1.getD i 0 = d2.getD i 0) : d1 = d2 := by
  induction d1 generalizing d2 with
  | nil =>
    cases d2 with
    | nil => rfl
    | cons b bs => simp at hlen
  | cons a as ih =>
    cases d2 with
    | nil => simp at hlen
    | cons b bs =>
      have h0 := hg 0
      simp only [List.getD_cons_zero] at h0
      have ht := ih bs (by simpa using hlen)
        (fun i => by simpa [List.getD_cons_succ] using hg (i + 1))
      simp [h0, ht]

theorem drop_eq_of_getD_agree (d1 d2 : List Nat) (p : Nat)
    (hlen : d1.length = d2.length)
    (hg : ∀ i, p ≤ i → d1.getD i 0 = d2.getD i 0) :
    d1.drop p = d2.drop p := by
  induction p generalizing d1 d2 with
  | zero => exact eq_of_getD_agree d1 d2 hlen (fun i => hg i (Nat.zero_le i))
  | succ q ih =>
    cases d1 with
    | nil =>
      cases d2 with
      | nil => rfl
      | cons b bs => simp at hlen
    | cons a as =>
      cases d2 with
      | nil => simp at hlen
      | cons b bs =>
        simpa using ih as bs (by simpa using hlen)
          (fun i hi => by simpa [List.getD_cons_succ] using hg (i + 1) (by omega))

/-- Loop invariant of the remaining-length while loop: if index k of
the scanned list is the first byte with clear continuation bit, the
loop returns the weighted sum of the low 7 bits of bytes 0..k and
stops with pos at that byte. -/
theorem remLenGo_spec : ∀ (l : List Nat) (k : Nat), k < l.length →
    (∀ i, i < k → l.getD i 0 &&& 0x80 ≠ 0) → l.getD k 0 &&& 0x80 = 0 →
    ∀ (p mult acc : Nat), remLenGo l p mult acc =
      (acc + ∑ j in Finset.range (k + 1),
        (l.getD j 0 &&& 0x7F) * (mult * 128 ^ j), p + k)
  | [], k, hk, _, _, _, _, _ => by simp at hk
  | b :: bs, 0, _, _, hclear, p, mult, acc => by
      simp only [List.getD_cons_zero] at hclear
      simp [remLenGo, hclear]
  | b :: bs, k + 1, hk, hcont, hclear, p, mult, acc => by
      have hb : ¬ (b &&& 0x80 = 0) := by
        simpa using hcont 0 (Nat.succ_pos k)
      rw [remLenGo, if_neg hb,
        remLenGo_spec bs k (by simpa using hk)
          (fun i hi => by
            simpa [List.getD_cons_succ] using hcont (i + 1) (by omega))
          (by simpa [List.getD_cons_succ] using hclear)]
      refine Prod.ext ?_ (by omega)
      simp only [Finset.sum_range_succ', List.getD_cons_succ,
        List.getD_cons_zero, pow_zero, pow_succ]
      rw [show (∑ x in Finset.range k,
            (bs.getD (x + 1) 0 &&& 127) * (mult * 128 * (128 ^ x * 128))) =
          ∑ x in Finset.range k,
            (bs.getD (x + 1) 0 &&& 127) * (mult * (128 ^ x * 128 * 128))
        from Finset.sum_congr rfl (fun j _ => by ring)]
      ring

/-! Claim theorems. -/

/-- Quality-of-service-1 PUBLISH used as evidence for claim C1: topic
is the two characters ab (topic length 2), the packet identifier in
the variable header (bytes 6 and 7, right after the topic) is 7, the
payload is the four bytes of the word test. -/
def c1Buf : List Nat :=
  [0x32, 0x0A, 0x00, 0x02, 0x61, 0x62, 0x00, 0x07, 0x74, 0x65, 0x73, 0x74]

/-- C1: evidence of the divergence. For the well-formed
quality-of-service-1 PUBLISH c1Buf whose variable-header packet
identifier is 7, the CONNECTED loop does append exactly one record,
but the PUBACK it writes is [0x40, 0x02, 0x00, 0x02]: its identifier
is 2, the 16-bit value at fixed offsets 2 and 3 of the buffer (the
topic length), not the packet identifier 7 required by the claim. -/
theorem C1_puback_id_is_topic_length :
    connectedStep c1Buf =
      ⟨[0x40, 0x02, 0x00, 0x02],
        some ⟨[0x61, 0x62], [0x74, 0x65, 0x73, 0x74], 1, false⟩, .cont⟩
    ∧ qosOf c1Buf = 1
    ∧ varHeaderPos c1Buf = 2
    ∧ 256 * c1Buf.getD 6 0 + c1Buf.getD 7 0 = 7
    ∧ 256 * (connectedStep c1Buf).sent.getD 2 0 +
        (connectedStep c1Buf).sent.getD 3 0 = 2
    ∧ (2 : Nat) ≠ 7 := by decide

/-- C2 counterexample: when the first received packet is a PUBLISH
(type 3, not CONNECT), the handler indeed sends nothing and never
enters the CONNECTED loop, but it does not remain in AWAITING_CONNECT:
handle_client falls through its if-ladder and the finally block closes
the socket, so the final state is closed. -/
theorem C2_counterexample :
    (handle_client [[0x30, 0x00]]).finalState = HState.closed
    ∧ HState.closed ≠ HState.awaitingConnect
    ∧ (handle_client [[0x30, 0x00]]).sent = []
    ∧ (handle_client [[0x30, 0x00]]).reachedConnected = false := by decide

/-- C2 (amended): for every connection whose first non-empty chunk has
a fixed-header type other than 1 (CONNECT), the handler sends no
bytes, appends no record, never enters the CONNECTED receive loop, and
terminates with the connection closed (rather than remaining open in
AWAITING_CONNECT). -/
theorem C2_non_connect_first_packet (c : List Nat) (rest : List (List Nat))
    (hne : c ≠ []) (htype : (c.getD 0 0 >>> 4) &&& 0x0F ≠ 1) :
    handle_client (c :: rest) = ⟨[], [], false, .closed⟩ := by
  rw [handle_client, if_neg hne, if_neg (fun h => htype h.2)]

/-- C2 witness: a PINGREQ as first packet. -/
theorem C2_witness :
    handle_client [[0xC0, 0x00]] = ⟨[], [], false, .closed⟩ :=
  C2_non_connect_first_packet [0xC0, 0x00] [] (by decide) (by decide)

/-- C3: for every buffer in which a first clear-continuation byte
exists at index k among the length bytes (every byte at indices 1
through k - 1 has bit 0x80 set and byte k has it clear), the
remaining-length loop returns the sum over the length bytes starting
at offset 1 of the low seven bits weighted by successive powers of
128, stops with pos at index k, and the variable header begins at the
byte immediately after, index k + 1. -/
theorem C3_remaining_length (data : List Nat) (k : Nat) (h1 : 1 ≤ k)
    (hk : k < data.length)
    (hcont : ∀ i, 1 ≤ i → i < k → data.getD i 0 &&& 0x80 ≠ 0)
    (hclear : data.getD k 0 &&& 0x80 = 0) :
    remLenLoop data =
      (∑ j in Finset.range k, (data.getD (1 + j) 0 &&& 0x7F) * 128 ^ j, k)
    ∧ varHeaderPos data = k + 1 := by
  obtain ⟨m, rfl⟩ : ∃ m, k = m + 1 := ⟨k - 1, by omega⟩
  have hlen : m < (data.drop 1).length := by
    rw [List.length_drop]; omega
  have hG := remLenGo_spec (data.drop 1) m hlen
    (fun i hi => by
      rw [getD_drop_nat]; exact hcont (1 + i) (by omega) (by omega))
    (by rw [getD_drop_nat, Nat.add_comm]; exact hclear)
    1 1 0
  have h2 : remLenLoop data =
      (∑ j in Finset.range (m + 1),
        (data.getD (1 + j) 0 &&& 0x7F) * 128 ^ j, m + 1) := by
    unfold remLenLoop
    rw [hG]
    refine Prod.ext ?_ (by omega)
    show 0 + ∑ j in Finset.range (m + 1),
        ((data.drop 1).getD j 0 &&& 0x7F) * (1 * 128 ^ j) =
      ∑ j in Finset.range (m + 1), (data.getD (1 + j) 0 &&& 0x7F) * 128 ^ j
    rw [Nat.zero_add]
    exact Finset.sum_congr rfl (fun j _ => by rw [getD_drop_nat, one_mul])
  exact ⟨h2, by unfold varHeaderPos; rw [h2]⟩

/-- C3 witness: buffer with a two-byte remaining-length field 0x81
0x01 (value 129), whose first clear-continuation byte is at index 2,
so the variable header starts at index 3. -/
theorem C3_witness :
    remLenLoop [0x30, 0x81, 0x01, 0x00] =
      (∑ j in Finset.range 2,
        ([0x30, 0x81, 0x01, 0x00].getD (1 + j) 0 &&& 0x7F) * 128 ^ j, 2)
    ∧ varHeaderPos [0x30, 0x81, 0x01, 0x00] = 3 :=
  C3_remaining_length [0x30, 0x81, 0x01, 0x00] 2 (by omega) (by simp)
    (fun i hi1 hi2 => by
      have : i = 1 := by omega
      subst this; decide)
    (by decide)

/-- Big-endian 16-bit topic length read by parse_publish at the start
of the variable header. -/
def topicLenAt (data : List Nat) : Nat :=
  256 * data.getD (varHeaderPos data) 0 + data.getD (varHeaderPos data + 1) 0

/-- Number of packet-identifier bytes parse_publish consumes after the
topic: two when the qos bits are nonzero, none otherwise. -/
def pidSize (data : List Nat) : Nat := if 0 < qosOf data then 2 else 0

/-- Characterization of a successful parse_publish: the buffer is long
enough for the variable header, the topic bytes and (when qos is
nonzero) the packet identifier; the topic is the utf-8 ignore-decoding
of exactly topicLenAt bytes after the 2-byte length; the payload is
the ignore-decoding of every byte after the topic and the optional
2-byte packet identifier through the end of the buffer; qos and retain
come from the first byte. -/
theorem parse_publish_some (data : List Nat) (r : Record)
    (h : parse_publish data = some r) :
    varHeaderPos data + 2 + topicLenAt data + pidSize data ≤ data.length
    ∧ r.topic = utf8DecodeIgnore
        ((data.drop (varHeaderPos data + 2)).take (topicLenAt data))
    ∧ r.payload = utf8DecodeIgnore
        (data.drop (varHeaderPos data + 2 + topicLenAt data + pidSize data))
    ∧ r.qos = qosOf data
    ∧ r.retain = ((data.getD 0 0 &&& 0x01) == 1) := by
  simp only [parse_publish] at h
  simp only [topicLenAt, pidSize, qosOf]
  split_ifs at h with hemp hg1 hg2 hq hg3
  · obtain rfl := (Option.some.injEq _ _).mp h
    simp only [hq, if_true]
    refine ⟨by omega, ?_, ?_, ?_, ?_⟩ <;> first | rfl | trivial
  · obtain rfl := (Option.some.injEq _ _).mp h
    simp only [hq, if_false]
    refine ⟨by omega, ?_, ?_, ?_, ?_⟩ <;> first | rfl | trivial

/-- C4 (amended): for every buffer that parse_publish decodes, the
decoder reads a 2-byte big-endian topic length right after the fixed
header, takes exactly that many bytes as the topic decoded as UTF-8
with unmappable bytes dropped (the ignore error handler) rather than
failing the whole packet; when the qos bits are nonzero it consumes 2
further bytes as the packet identifier without validating them; all
remaining bytes form the payload of the stored record, decoded the
same way. -/
theorem C4_publish_field_layout (data : List Nat) (r : Record)
    (h : parse_publish data = some r) :
    varHeaderPos data + 2 + topicLenAt data + pidSize data ≤ data.length
    ∧ r.topic = utf8DecodeIgnore
        ((data.drop (varHeaderPos data + 2)).take (topicLenAt data))
    ∧ r.payload = utf8DecodeIgnore
        (data.drop (varHeaderPos data + 2 + topicLenAt data + pidSize data))
    ∧ r.qos = qosOf data
    ∧ r.retain = ((data.getD 0 0 &&& 0x01) == 1) :=
  parse_publish_some data r h

/-- Quality-of-service-1 PUBLISH with a one-byte topic used as witness
input for claim C4. -/
def c4Buf : List Nat := [0x32, 0x08, 0x00, 0x01, 0x61, 0x00, 0x07, 0x62]

/-- C4 witness: the layout theorem evaluated on c4Buf. -/
theorem C4_witness :
    varHeaderPos c4Buf + 2 + topicLenAt c4Buf + pidSize c4Buf ≤ c4Buf.length
    ∧ ([0x61] : List Nat) = utf8DecodeIgnore
        ((c4Buf.drop (varHeaderPos c4Buf + 2)).take (topicLenAt c4Buf))
    ∧ ([0x62] : List Nat) = utf8DecodeIgnore
        (c4Buf.drop (varHeaderPos c4Buf + 2 + topicLenAt c4Buf + pidSize c4Buf))
    ∧ (1 : Nat) = qosOf c4Buf
    ∧ false = ((c4Buf.getD 0 0 &&& 0x01) == 1) :=
  C4_publish_field_layout c4Buf ⟨[0x61], [0x62], 1, false⟩ (by decide)

/-- C4 counterexample to the claim as stated: a PUBLISH whose topic
bytes contain the invalid byte 0xFF decodes successfully, but the
stored topic is the ignore-decoding [0x61, 0x62] (the unmappable byte
is dropped), not the substitution-decoding [0xFFFD, 0x61, 0x62] that
the claim words describe. -/
theorem C4_counterexample :
    parse_publish [0x30, 0x06, 0x00, 0x03, 0xFF, 0x61, 0x62, 0x63] =
      some ⟨[0x61, 0x62], [0x63], 0, false⟩
    ∧ utf8DecodeIgnore [0xFF, 0x61, 0x62] = [0x61, 0x62]
    ∧ utf8DecodeReplace [0xFF, 0x61, 0x62] = [0xFFFD, 0x61, 0x62]
    ∧ ([0x61, 0x62] : List Nat) ≠ [0xFFFD, 0x61, 0x62] := by decide

/-- The CONNECTED-loop step on a PUBLISH chunk: the record slot is
exactly the parse_publish result, the loop always continues, and a
PUBACK built from the bytes at fixed offsets 2 and 3 is sent exactly
when the qos bits equal 1 and the chunk has at least 4 bytes —
regardless of decode success. -/
theorem connectedStep_publish (d : List Nat)
    (ht : (d.getD 0 0 >>> 4) &&& 0x0F = 3) :
    connectedStep d =
      ⟨if qosOf d = 1 ∧ 4 ≤ d.length then
          [0x40, 0x02, (256 * d.getD 2 0 + d.getD 3 0) / 256 % 256,
            (256 * d.getD 2 0 + d.getD 3 0) % 256]
        else [], parse_publish d, .cont⟩ := by
  simp only [connectedStep, ht, if_true]
  refine congrArg (fun s => StepOut.mk s (parse_publish d) .cont) ?_
  split_ifs <;> first | rfl | omega

/-- C5 counterexample to the claim as stated: the 4-byte buffer is a
quality-of-service-1 PUBLISH whose declared topic length 0x20 exceeds
the buffer, so parse_publish fails and no record is appended — yet the
handler still writes a PUBACK [0x40, 0x02, 0x00, 0x20] back, because
the acknowledgment decision in handle_client only looks at the qos
bits and the buffer length, never at decode success. -/
theorem C5_counterexample :
    parse_publish [0x32, 0x0A, 0x00, 0x20] = none
    ∧ (connectedStep [0x32, 0x0A, 0x00, 0x20]).rec? = none
    ∧ (connectedStep [0x32, 0x0A, 0x00, 0x20]).sent = [0x40, 0x02, 0x00, 0x20]
    ∧ (connectedStep [0x32, 0x0A, 0x00, 0x20]).sent ≠ [] := by decide

/-- C5 (amended): on a PUBLISH decode failure no record is appended
and the connection remains open and continues reading; no
acknowledgment is sent when the fixed-header qos bits differ from 1 or
the buffer is shorter than 4 bytes, but a buffer with qos bits 1 and
at least 4 bytes still receives a PUBACK (built from bytes 2 and 3)
even though decoding failed. -/
theorem C5_decode_failure_effects (d : List Nat)
    (ht : (d.getD 0 0 >>> 4) &&& 0x0F = 3)
    (hfail : parse_publish d = none) :
    (connectedStep d).rec? = none
    ∧ (connectedStep d).ctl = LoopCtl.cont
    ∧ (¬ (qosOf d = 1 ∧ 4 ≤ d.length) → (connectedStep d).sent = [])
    ∧ ((qosOf d = 1 ∧ 4 ≤ d.length) → (connectedStep d).sent =
        [0x40, 0x02, (256 * d.getD 2 0 + d.getD 3 0) / 256 % 256,
          (256 * d.getD 2 0 + d.getD 3 0) % 256]) := by
  rw [connectedStep_publish d ht]
  refine ⟨hfail, rfl, fun hn => ?_, fun hy => ?_⟩
  · exact if_neg hn
  · exact if_pos hy

/-- C5 witness: a quality-of-service-0 PUBLISH with an oversized topic
length: decode fails, nothing is appended, nothing is sent, the loop
continues. -/
theorem C5_witness :
    (connectedStep [0x30, 0x05, 0x00, 0x20]).rec? = none
    ∧ (connectedStep [0x30, 0x05, 0x00, 0x20]).ctl = LoopCtl.cont
    ∧ (¬ (qosOf [0x30, 0x05, 0x00, 0x20] = 1 ∧
          4 ≤ ([0x30, 0x05, 0x00, 0x20] : List Nat).length) →
        (connectedStep [0x30, 0x05, 0x00, 0x20]).sent = [])
    ∧ ((qosOf [0x30, 0x05, 0x00, 0x20] = 1 ∧
          4 ≤ ([0x30, 0x05, 0x00, 0x20] : List Nat).length) →
        (connectedStep [0x30, 0x05, 0x00, 0x20]).sent =
          [0x40, 0x02,
            (256 * ([0x30, 0x05, 0x00, 0x20] : List Nat).getD 2 0 +
              ([0x30, 0x05, 0x00, 0x20] : List Nat).getD 3 0) / 256 % 256,
            (256 * ([0x30, 0x05, 0x00, 0x20] : List Nat).getD 2 0 +
              ([0x30, 0x05, 0x00, 0x20] : List Nat).getD 3 0) % 256]) :=
  C5_decode_failure_effects [0x30, 0x05, 0x00, 0x20] (by decide) (by decide)

/-- C6: a well-formed quality-of-service-0 PUBLISH chunk in the
CONNECTED state sends no acknowledgment bytes of any kind, appends
exactly the one parsed record, and the loop continues. -/
theorem C6_qos0_publish (d : List Nat) (r : Record)
    (ht : (d.getD 0 0 >>> 4) &&& 0x0F = 3)
    (hq : qosOf d = 0)
    (hp : parse_publish d = some r) :
    connectedStep d = ⟨[], some r, .cont⟩ := by
  rw [connectedStep_publish d ht, hp, if_neg (by rintro ⟨h1, -⟩; omega)]

/-- C6 witness: a quality-of-service-0 PUBLISH with topic ab and empty
payload. -/
theorem C6_witness :
    connectedStep [0x30, 0x04, 0x00, 0x02, 0x61, 0x62] =
      ⟨[], some ⟨[0x61, 0x62], [], 0, false⟩, .cont⟩ :=
  C6_qos0_publish [0x30, 0x04, 0x00, 0x02, 0x61, 0x62]
    ⟨[0x61, 0x62], [], 0, false⟩ (by decide) (by decide) (by decide)

/-- C7: a well-formed quality-of-service-2 PUBLISH chunk in the
CONNECTED state is decoded and appended as one record, yet nothing at
all is written back (no PUBREC or any other frame) and the loop simply
continues. -/
theorem C7_qos2_publish (d : List Nat) (r : Record)
    (ht : (d.getD 0 0 >>> 4) &&& 0x0F = 3)
    (hq : qosOf d = 2)
    (hp : parse_publish d = some r) :
    connectedStep d = ⟨[], some r, .cont⟩ := by
  rw [connectedStep_publish d ht, hp, if_neg (by rintro ⟨h1, -⟩; omega)]

/-- C7 witness: a quality-of-service-2 PUBLISH with topic ab, packet
identifier 7 and empty payload. -/
theorem C7_witness :
    connectedStep [0x34, 0x06, 0x00, 0x02, 0x61, 0x62, 0x00, 0x07] =
      ⟨[], some ⟨[0x61, 0x62], [], 2, false⟩, .cont⟩ :=
  C7_qos2_publish [0x34, 0x06, 0x00, 0x02, 0x61, 0x62, 0x00, 0x07]
    ⟨[0x61, 0x62], [], 2, false⟩ (by decide) (by decide) (by decide)

/-- Every record slot a CONNECTED-loop step produces comes from
parse_publish on the same chunk. -/
theorem connectedStep_rec_of_some (d : List Nat) (r : Record)
    (h : (connectedStep d).rec? = some r) : parse_publish d = some r := by
  revert h
  simp only [connectedStep]
  split_ifs <;> intro h <;> first | exact h | exact h.elim

/-- Every record the CONNECTED loop appends comes from parse_publish
on some chunk. -/
theorem connectedLoop_records_mem :
    ∀ (cs : List (List Nat)) (r : Record), r ∈ (connectedLoop cs).2 →
      ∃ d, parse_publish d = some r
  | [], r, h => by simp [connectedLoop] at h
  | d :: rest, r, h => by
      rw [connectedLoop] at h
      by_cases hd : d = []
      · rw [if_pos hd] at h
        simp at h
      · rw [if_neg hd] at h
        cases hctl : (connectedStep d).ctl with
        | brk =>
            rw [hctl] at h
            simp only [Option.mem_toList, Option.mem_def] at h
            exact ⟨d, connectedStep_rec_of_some d r h⟩
        | cont =>
            rw [hctl] at h
            simp only [List.mem_append, Option.mem_toList, Option.mem_def] at h
            rcases h with h | h
            · exact ⟨d, connectedStep_rec_of_some d r h⟩
            · exact connectedLoop_records_mem rest r h

/-- The qos field of every parsed record is the two qos bits of the
first byte, hence at most 3. -/
theorem parse_publish_qos_lt_four (d : List Nat) (r : Record)
    (h : parse_publish d = some r) : r.qos < 4 := by
  have hq := (parse_publish_some d r h).2.2.2.1
  rw [hq, qosOf]
  have hle : (d.getD 0 0 >>> 1) &&& 3 ≤ 3 := Nat.and_le_right
  omega

/-- C8 counterexample to the claim as stated: a PUBLISH whose fixed
header byte 0x36 carries qos bits 3 is decoded and stored unchanged,
so the Message Store can contain a record whose qos is outside
the set containing 0, 1 and 2. -/
theorem C8_counterexample :
    (handle_client [[0x10, 0x00], [0x36, 0x04, 0x00, 0x00, 0x00, 0x07]]).records =
      [⟨[], [], 3, false⟩]
    ∧ ¬ ((3 : Nat) = 0 ∨ (3 : Nat) = 1 ∨ (3 : Nat) = 2) := by decide

/-- C8 (amended): every record ever appended to the store by
handle_client has a qos equal to the two qos bits of the PUBLISH fixed
header, hence in the set containing 0, 1, 2 and 3; the protocol-invalid
value 3 is possible because parse_publish never validates the bits. -/
theorem C8_store_qos_bound (chunks : List (List Nat)) (r : Record)
    (hr : r ∈ (handle_client chunks).records) : r.qos < 4 := by
  rcases chunks with _ | ⟨c, rest⟩
  · simp [handle_client] at hr
  · rw [handle_client] at hr
    by_cases hc : c = []
    · rw [if_pos hc] at hr
      simp at hr
    · rw [if_neg hc] at hr
      by_cases hcon : 2 ≤ c.length ∧ (c.getD 0 0 >>> 4) &&& 0x0F = 1
      · rw [if_pos hcon] at hr
        obtain ⟨d, hd⟩ := connectedLoop_records_mem rest r hr
        exact parse_publish_qos_lt_four d r hd
      · rw [if_neg hcon] at hr
        simp at hr

/-- C8 witness: the boundary record with qos 3 stored by the
counterexample session is indeed below 4. -/
theorem C8_witness : (Record.mk [] [] 3 false).qos < 4 :=
  C8_store_qos_bound [[0x10, 0x00], [0x36, 0x04, 0x00, 0x00, 0x00, 0x07]]
    ⟨[], [], 3, false⟩ (by decide)

/-- C9: the store operations. clear_messages followed by
get_published_messages yields the empty sequence; an append is visible
to the next snapshot as exactly one new trailing record; and a
snapshot equals the current contents (list(...) copies the list). In
this state-passing embedding a snapshot already taken is a fixed
value, so no later append or clear can change it — the mutation
immunity the claim describes is inherent once snapshot returns a copy
rather than the live list. -/
theorem C9_snapshot_semantics (s : List Record) (r : Record) :
    get_published_messages (clear_messages s) = []
    ∧ get_published_messages (append_record s r) =
        get_published_messages s ++ [r]
    ∧ get_published_messages s = s :=
  ⟨rfl, rfl, rfl⟩

/-- C10: parse_publish never uses the decoded remaining-length value.
Whenever two buffers have the same length, the same first byte, the
same final loop position (same-width remaining-length field) and the
same bytes everywhere after that position, they parse identically —
even though the two remaining-length magnitudes may differ
arbitrarily; in particular the payload always extends to the end of
the received buffer rather than being bounded by the declared length. -/
theorem C10_remaining_length_unused (d1 d2 : List Nat)
    (hlen : d1.length = d2.length)
    (h0 : d1.getD 0 0 = d2.getD 0 0)
    (hpos : (remLenLoop d1).2 = (remLenLoop d2).2)
    (hsuf : ∀ i, (remLenLoop d1).2 < i → d1.getD i 0 = d2.getD i 0) :
    parse_publish d1 = parse_publish d2 := by
  by_cases he : d1 = []
  · have he2 : d2 = [] := by
      subst he
      exact List.eq_nil_of_length_eq_zero hlen.symm
    rw [he, he2]
  · have he2 : d2 ≠ [] := by
      intro h
      apply he
      apply List.eq_nil_of_length_eq_zero
      rw [hlen, h]
      rfl
    have hvp : varHeaderPos d2 = varHeaderPos d1 := by
      unfold varHeaderPos
      rw [hpos]
    have hkey : varHeaderPos d1 = (remLenLoop d1).2 + 1 := rfl
    have hall : ∀ i, varHeaderPos d1 ≤ i → d1.getD i 0 = d2.getD i 0 := by
      intro i hi
      exact hsuf i (by omega)
    have hdrop : ∀ k, d1.drop (varHeaderPos d1 + k) = d2.drop (varHeaderPos d1 + k) := by
      intro k
      exact drop_eq_of_getD_agree d1 d2 _ hlen (fun i hi => hall i (by omega))
    have hb0 : d1.getD (varHeaderPos d1) 0 = d2.getD (varHeaderPos d1) 0 := by
      have := hall (varHeaderPos d1) le_rfl
      exact this
    have hb1 : d1.getD (varHeaderPos d1 + 1) 0 = d2.getD (varHeaderPos d1 + 1) 0 :=
      hall _ (by omega)
    have hd2 : d1.drop (varHeaderPos d1 + 2) = d2.drop (varHeaderPos d1 + 2) := hdrop 2
    have hdtl : ∀ tl, d1.drop (varHeaderPos d1 + 2 + tl) =
        d2.drop (varHeaderPos d1 + 2 + tl) := by
      intro tl
      have h := hdrop (2 + tl)
      rwa [← Nat.add_assoc] at h
    have hdtl2 : ∀ tl, d1.drop (varHeaderPos d1 + 2 + tl + 2) =
        d2.drop (varHeaderPos d1 + 2 + tl + 2) := by
      intro tl
      have h := hdrop (2 + tl + 2)
      rwa [show varHeaderPos d1 + (2 + tl + 2) = varHeaderPos d1 + 2 + tl + 2 by omega] at h
    simp only [parse_publish, if_neg he, if_neg he2, hvp, h0, hlen, hb0, hb1,
      hd2, hdtl, hdtl2]

/-- Buffer with a one-byte remaining-length field declaring 4 used as
witness input for claim C10. -/
def c10Buf1 : List Nat := [0x30, 0x04, 0x00, 0x02, 0x61, 0x62]

/-- Same buffer as c10Buf1 except the remaining-length field declares
127: the declared magnitude differs, everything else agrees. -/
def c10Buf2 : List Nat := [0x30, 0x7F, 0x00, 0x02, 0x61, 0x62]

/-- C10 witness: the two buffers differing only in the declared
remaining-length magnitude parse identically. -/
theorem C10_witness : parse_publish c10Buf1 = parse_publish c10Buf2 :=
  C10_remaining_length_unused c10Buf1 c10Buf2 (by decide) (by decide) (by decide)
    (fun i hi => by
      match i with
      | 0 => exact absurd hi (by decide)
      | 1 => exact absurd hi (by decide)
      | n + 2 => rfl)

end MockMqtt
